import Mathlib

/-!
Shallow embedding of the drawing application in `src/component/Drawing.tsx`:
the shape data model (tagged union over rectangle / circle / line), the
component state (shape collection, selected id, drawing type, pending line
start, tool configuration, undo/redo stacks) and the event handlers
(`createShape`, `handleSelect`, `updateShape`, `undoLast`, `redoLast`,
the `onTransformEnd` / `onDragEnd` callbacks and the shape-type selector).

Coordinates and sizes are modelled as rationals (the source uses JS numbers;
every operation verified here is exact field arithmetic plus `Math.max`, so
no floating-point rounding is involved in the claims). Shape ids come from
`uuidv4()` in the source; they are modelled by a fresh-id counter `nextId`
carried in the state, which captures exactly the uniqueness guarantee the
source relies on.
-/

namespace Drawing

/-- Pointer position on the stage, as returned by `stage.getPointerPosition()`. -/
structure Point where
  x : ℚ
  y : ℚ
deriving DecidableEq

/-- Source: `export type ShapeType = rectangle | circle | line` (string literal union). -/
inductive ShapeType
  | rectangle
  | circle
  | line
deriving DecidableEq

/-- The `dashStyle` state: a string literal union of solid and dashed. -/
inductive DashStyle
  | solid
  | dashed
deriving DecidableEq

/-- Variant-specific geometry of a shape: the fields of `RectShape`,
`CircleShape`, `LineShape` that are not in `BaseShape`. -/
inductive ShapeGeom
  | rect (x y width height : ℚ) (fill : String)
  | circle (x y radius : ℚ) (fill : String)
  | line (points : List ℚ)
deriving DecidableEq

/-- A shape: the `BaseShape` fields shared by all variants plus the
variant-specific geometry payload (`type Shape = RectShape | CircleShape |
LineShape`; the discriminant `type` is the constructor of `geom`). -/
structure Shape where
  id : Nat
  stroke : String
  strokeWidth : ℚ
  dash : List ℚ
  draggable : Bool
  isSelected : Bool
  geom : ShapeGeom
deriving DecidableEq

/-- The React component state of `DrawingApp`. -/
structure AppState where
  shapes : List Shape
  selectedId : Option Nat
  drawingType : ShapeType
  lineStart : Option Point
  strokeColor : String
  strokeWidth : ℚ
  dashStyle : DashStyle
  fillColor : String
  history : List (List Shape)
  redoStack : List (List Shape)
  /-- fresh-id source modelling `uuidv4()` uniqueness -/
  nextId : Nat
deriving DecidableEq

/-- The initial `useState` values of the component. -/
def initialState : AppState :=
  { shapes := []
    selectedId := none
    drawingType := ShapeType.rectangle
    lineStart := none
    strokeColor := "#000000"
    strokeWidth := 2
    dashStyle := DashStyle.solid
    fillColor := "#f0f0f0"
    history := []
    redoStack := []
    nextId := 0 }

/-- Source: `const dashArray = dashStyle === dashed ? [10, 5] : []`. -/
def dashArrayOf (style : DashStyle) : List ℚ :=
  if style = DashStyle.dashed then [10, 5] else []

/-- Source `pushToHistory`: appends the current (pre-mutation) collection to the
undo stack and clears the redo stack. -/
def pushToHistory (s : AppState) : AppState :=
  { s with history := s.history ++ [s.shapes], redoStack := [] }

/-- The `newLine` object built in `createShape` on the second line click. -/
def mkLine (s : AppState) (start pointer : Point) : Shape :=
  { id := s.nextId
    stroke := s.strokeColor
    strokeWidth := s.strokeWidth
    dash := dashArrayOf s.dashStyle
    draggable := true
    isSelected := false
    geom := ShapeGeom.line [start.x, start.y, pointer.x, pointer.y] }

/-- The `newShape` object built in `createShape` in the rectangle branch. -/
def mkRect (s : AppState) (pointer : Point) : Shape :=
  { id := s.nextId
    stroke := s.strokeColor
    strokeWidth := s.strokeWidth
    dash := dashArrayOf s.dashStyle
    draggable := true
    isSelected := false
    geom := ShapeGeom.rect pointer.x pointer.y 100 60 s.fillColor }

/-- The `newShape` object built in `createShape` in the circle branch. -/
def mkCircle (s : AppState) (pointer : Point) : Shape :=
  { id := s.nextId
    stroke := s.strokeColor
    strokeWidth := s.strokeWidth
    dash := dashArrayOf s.dashStyle
    draggable := true
    isSelected := false
    geom := ShapeGeom.circle pointer.x pointer.y 40 s.fillColor }

/-- Source `createShape`, the stage `onMouseDown` handler, at pointer position
`pointer`. Line drawing is two-phase on `lineStart`; rectangle and circle
are created at a fixed default size and set `selectedId` to the new id. -/
def createShape (pointer : Point) (s : AppState) : AppState :=
  if s.drawingType = ShapeType.line then
    match s.lineStart with
    | none => { s with lineStart := some pointer }
    | some start =>
        let newLine := mkLine s start pointer
        let s₁ := pushToHistory s
        { s₁ with
            shapes := s₁.shapes ++ [newLine]
            lineStart := none
            nextId := s₁.nextId + 1 }
  else
    let newShape :=
      if s.drawingType = ShapeType.rectangle then mkRect s pointer else mkCircle s pointer
    let s₁ := pushToHistory s
    { s₁ with
        shapes := s₁.shapes ++ [newShape]
        selectedId := some newShape.id
        nextId := s₁.nextId + 1 }

/-- Source `handleSelect(id)`: sets `selectedId` and maps
`isSelected := shape.id === id` over the collection. No history push. -/
def handleSelect (id : Nat) (s : AppState) : AppState :=
  { s with
      selectedId := some id
      shapes := s.shapes.map fun sh => { sh with isSelected := sh.id == id } }

/-- The geometry patches actually passed to `updateShape` by the render
callbacks: `{x,y}` from drag-end of rect/circle, `{x,y,width,height}` from
rect transform-end, `{x,y,radius}` from circle transform-end, and
`{points}` from line drag-end. -/
inductive Patch
  | pos (x y : ℚ)
  | rectBox (x y width height : ℚ)
  | circleBox (x y radius : ℚ)
  | linePoints (points : List ℚ)
deriving DecidableEq

/-- Spread semantics of `{ ...shape, ...updatedProps }`: applies the patched geometry fields to
the shape. A patch whose fields do not belong to the shape's variant leaves
the shape unchanged (in the source such extraneous spread fields are never
read back, and the call sites only patch the matching variant). -/
def applyPatch (p : Patch) (sh : Shape) : Shape :=
  match p, sh.geom with
  | Patch.pos nx ny, ShapeGeom.rect _ _ w h f =>
      { sh with geom := ShapeGeom.rect nx ny w h f }
  | Patch.pos nx ny, ShapeGeom.circle _ _ r f =>
      { sh with geom := ShapeGeom.circle nx ny r f }
  | Patch.rectBox nx ny nw nh, ShapeGeom.rect _ _ _ _ f =>
      { sh with geom := ShapeGeom.rect nx ny nw nh f }
  | Patch.circleBox nx ny nr, ShapeGeom.circle _ _ _ f =>
      { sh with geom := ShapeGeom.circle nx ny nr f }
  | Patch.linePoints ps, ShapeGeom.line _ =>
      { sh with geom := ShapeGeom.line ps }
  | _, _ => sh

/-- Source `updateShape(id, updatedProps)`: pushes to history (unconditionally,
before looking at the id), then maps the patch over the shape with the
given id. -/
def updateShape (id : Nat) (p : Patch) (s : AppState) : AppState :=
  let s₁ := pushToHistory s
  { s₁ with
      shapes := s₁.shapes.map fun sh => if sh.id == id then applyPatch p sh else sh }

/-- Source `undoLast`: the expression `history[history.length-1]` is undefined exactly when the
stack is empty (an array, even empty, is truthy); otherwise push the current
collection onto the redo stack, restore the popped snapshot, and drop it
from the undo stack. -/
def undoLast (s : AppState) : AppState :=
  match s.history.getLast? with
  | none => s
  | some prev =>
      { s with
          redoStack := s.redoStack ++ [s.shapes]
          shapes := prev
          history := s.history.dropLast }

/-- Source `redoLast`: mirror of `undoLast` on the redo stack. -/
def redoLast (s : AppState) : AppState :=
  match s.redoStack.getLast? with
  | none => s
  | some next =>
      { s with
          history := s.history ++ [s.shapes]
          shapes := next
          redoStack := s.redoStack.dropLast }

/-- The shape-type `<select>` `onChange` handler: `setDrawingType`. -/
def setDrawingType (t : ShapeType) (s : AppState) : AppState :=
  { s with drawingType := t }

/-- The patch built by `Rect.onTransformEnd`: `node.width()` / `node.height()`
are the stored dimensions (scale is reset to 1 on the node), so the new box is
`Math.max(5, node.width() * scaleX)` by `Math.max(5, node.height() * scaleY)`
at the node's post-transform position. -/
def rectTransformPatch (nodeX nodeY nodeW nodeH scaleX scaleY : ℚ) : Patch :=
  Patch.rectBox nodeX nodeY (max 5 (nodeW * scaleX)) (max 5 (nodeH * scaleY))

/-- The patch built by `Circle.onTransformEnd`: the new radius is
`Math.max(5, shape.radius * scale)` with `scale = node.scaleX()`. -/
def circleTransformPatch (nodeX nodeY radius scale : ℚ) : Patch :=
  Patch.circleBox nodeX nodeY (max 5 (radius * scale))

/-- The patch built by `Line.onDragEnd`: from the stored points
`[x1,y1,x2,y2]` and the node's new position `(nx,ny)`, the delta is
`(nx - x1, ny - y1)` and both endpoints are translated by it. -/
def lineDragPatch (x1 y1 x2 y2 nx ny : ℚ) : Patch :=
  Patch.linePoints [x1 + (nx - x1), y1 + (ny - y1), x2 + (nx - x1), y2 + (ny - y1)]

/-- The user-gesture alphabet generating reachable states: shape placement,
click-select, a geometry update from a render callback, the Undo and Redo
buttons, and the shape-type selector. -/
inductive Op
  | create (pointer : Point)
  | select (id : Nat)
  | update (id : Nat) (p : Patch)
  | undo
  | redo
  | setType (t : ShapeType)

/-- Dispatch one gesture to its handler. -/
def applyOp (s : AppState) (op : Op) : AppState :=
  match op with
  | Op.create p => createShape p s
  | Op.select id => handleSelect id s
  | Op.update id p => updateShape id p s
  | Op.undo => undoLast s
  | Op.redo => redoLast s
  | Op.setType t => setDrawingType t s

/-- Run a sequence of gestures from a state. -/
def applyOps (ops : List Op) (s : AppState) : AppState :=
  ops.foldl applyOp s

/-- Number of shapes with `isSelected = true` in a collection. -/
def selCount (shapes : List Shape) : Nat :=
  shapes.countP fun sh => sh.isSelected

/-- Ops that edit the document (everything except Undo/Redo): these never
remove or rewrite existing undo-stack entries. -/
def isEditOp : Op → Bool
  | Op.undo => false
  | Op.redo => false
  | _ => true

/-! ### Sample states used by the witnesses -/

/-- The placement point of the sample rectangle. -/
def ptA : Point := ⟨10, 10⟩

/-- One rectangle created from the initial state. -/
def sRect1 : AppState := createShape ptA initialState

/-- Initial state switched to line mode. -/
def sLine0 : AppState := setDrawingType ShapeType.line initialState

/-- Line mode with a pending start point at the origin. -/
def sLine1 : AppState := createShape ⟨0, 0⟩ sLine0

/-! ### Basic lemmas about the history operations -/

theorem undoLast_of_history_nil (s : AppState) (h : s.history = []) :
    undoLast s = s := by
  simp [undoLast, h]

theorem redoLast_of_redoStack_nil (s : AppState) (h : s.redoStack = []) :
    redoLast s = s := by
  simp [redoLast, h]

theorem undoLast_concat (s : AppState) (h : List (List Shape)) (S : List Shape)
    (hh : s.history = h ++ [S]) :
    undoLast s =
      { s with redoStack := s.redoStack ++ [s.shapes], shapes := S, history := h } := by
  unfold undoLast
  rw [hh, List.getLast?_concat]
  simp [hh]

theorem redoLast_concat (s : AppState) (r : List (List Shape)) (S : List Shape)
    (hr : s.redoStack = r ++ [S]) :
    redoLast s =
      { s with history := s.history ++ [s.shapes], shapes := S, redoStack := r } := by
  unfold redoLast
  rw [hr, List.getLast?_concat]
  simp [hr]

/-! ### Claims -/

/-- Claim C1: undo on an empty undo stack is a no-op; otherwise undo pops the
top snapshot `S`, pushes the current live collection onto the redo stack and
makes `S` live; and undo immediately followed by redo restores exactly the
collection that was live before the undo. -/
theorem c1_undo_redo (s : AppState) :
    (s.history = [] → undoLast s = s) ∧
    (∀ h S, s.history = h ++ [S] →
      (undoLast s).shapes = S ∧
      (undoLast s).redoStack = s.redoStack ++ [s.shapes] ∧
      (undoLast s).history = h) ∧
    (s.history ≠ [] → (redoLast (undoLast s)).shapes = s.shapes) := by
  refine ⟨undoLast_of_history_nil s, ?_, ?_⟩
  · intro h S hh
    rw [undoLast_concat s h S hh]
    exact ⟨rfl, rfl, rfl⟩
  · intro hne
    rcases List.eq_nil_or_concat s.history with h | ⟨h, S, hh⟩
    · exact absurd h hne
    · rw [List.concat_eq_append] at hh
      rw [undoLast_concat s h S hh,
        redoLast_concat _ s.redoStack s.shapes (by simp)]

/-- Witness for C1 at concrete states: undo on the initial state is a no-op;
after creating one rectangle, undo empties the collection and undo-then-redo
restores it. -/
theorem c1_witness :
    undoLast initialState = initialState ∧
    (undoLast sRect1).shapes = [] ∧
    (redoLast (undoLast sRect1)).shapes = sRect1.shapes := by
  refine ⟨(c1_undo_redo initialState).1 rfl, ?_, ?_⟩
  · exact ((c1_undo_redo sRect1).2.1 [] [] (by decide)).1
  · exact (c1_undo_redo sRect1).2.2 (by decide)

/-- Claim C2: every mutating operation (shape creation — for line, the click
that actually adds the shape — and geometry update) first pushes the
pre-mutation collection onto the undo stack and unconditionally empties the
redo stack, so a redo requested immediately afterwards is a no-op. -/
theorem c2_redo_invalidation (s : AppState) (pointer : Point) (id : Nat) (p : Patch) :
    ((updateShape id p s).history = s.history ++ [s.shapes] ∧
     (updateShape id p s).redoStack = [] ∧
     redoLast (updateShape id p s) = updateShape id p s) ∧
    ((s.drawingType = ShapeType.line → s.lineStart ≠ none) →
     (createShape pointer s).history = s.history ++ [s.shapes] ∧
     (createShape pointer s).redoStack = [] ∧
     redoLast (createShape pointer s) = createShape pointer s) := by
  constructor
  · refine ⟨rfl, rfl, ?_⟩
    exact redoLast_of_redoStack_nil _ rfl
  · intro hcond
    by_cases hdt : s.drawingType = ShapeType.line
    · rcases hst : s.lineStart with _ | st
      · exact absurd hst (hcond hdt)
      · refine ⟨?_, ?_, ?_⟩
        · simp [createShape, hdt, hst, pushToHistory]
        · simp [createShape, hdt, hst, pushToHistory]
        · apply redoLast_of_redoStack_nil
          simp [createShape, hdt, hst, pushToHistory]
    · refine ⟨?_, ?_, ?_⟩
      · simp [createShape, hdt, pushToHistory]
      · simp [createShape, hdt, pushToHistory]
      · apply redoLast_of_redoStack_nil
        simp [createShape, hdt, pushToHistory]

/-- Witness for C2 at concrete inputs: after a geometry update (and after a
rectangle creation) on the one-rectangle state, the redo stack is empty and
redo is a no-op. -/
theorem c2_witness :
    redoLast (updateShape 0 (Patch.pos 3 4) sRect1) = updateShape 0 (Patch.pos 3 4) sRect1 ∧
    (createShape ptA sRect1).redoStack = [] ∧
    (createShape ptA sRect1).history = sRect1.history ++ [sRect1.shapes] := by
  have h := c2_redo_invalidation sRect1 ptA 0 (Patch.pos 3 4)
  have h2 := h.2 (by decide)
  exact ⟨h.1.2.2, h2.2.1, h2.1⟩

/-- Claim C3: line creation is two-phase. With no pending start point, a
placement only records the point (the whole state changes only in
`lineStart`: no shape is added, no history entry pushed); with a pending
start `(sx,sy)`, a placement at `(cx,cy)` appends exactly one line shape
with points `[sx,sy,cx,cy]`, pushes exactly one history entry and clears
the pending point. -/
theorem c3_two_phase_line (s : AppState) (pointer : Point)
    (hline : s.drawingType = ShapeType.line) :
    (s.lineStart = none → createShape pointer s = { s with lineStart := some pointer }) ∧
    (∀ st, s.lineStart = some st →
      (createShape pointer s).shapes = s.shapes ++ [mkLine s st pointer] ∧
      (mkLine s st pointer).geom = ShapeGeom.line [st.x, st.y, pointer.x, pointer.y] ∧
      (createShape pointer s).history = s.history ++ [s.shapes] ∧
      (createShape pointer s).lineStart = none) := by
  constructor
  · intro h
    simp [createShape, hline, h]
  · intro st h
    refine ⟨?_, rfl, ?_, ?_⟩ <;> simp [createShape, hline, h, pushToHistory]

/-- Witness for C3: placing at `(0,0)` in line mode only records the pending
point; placing again at `(50,50)` appends one line with points
`[0,0,50,50]` and pushes one history entry. -/
theorem c3_witness :
    createShape ⟨0, 0⟩ sLine0 = { sLine0 with lineStart := some ⟨0, 0⟩ } ∧
    (createShape ⟨50, 50⟩ sLine1).shapes = sLine1.shapes ++ [mkLine sLine1 ⟨0, 0⟩ ⟨50, 50⟩] ∧
    (mkLine sLine1 ⟨0, 0⟩ ⟨50, 50⟩).geom = ShapeGeom.line [0, 0, 50, 50] ∧
    (createShape ⟨50, 50⟩ sLine1).history = sLine1.history ++ [sLine1.shapes] := by
  have h1 := (c3_two_phase_line sLine0 ⟨0, 0⟩ (by decide)).1 (by decide)
  have h2 := (c3_two_phase_line sLine1 ⟨50, 50⟩ (by decide)).2 ⟨0, 0⟩ (by decide)
  exact ⟨h1, h2.1, h2.2.1, h2.2.2.1⟩

/-! ### Lemmas about `applyPatch` -/

theorem applyPatch_id (p : Patch) (sh : Shape) : (applyPatch p sh).id = sh.id := by
  obtain ⟨i, st, sw, d, dr, sel, g⟩ := sh
  cases p <;> cases g <;> rfl

theorem applyPatch_isSelected (p : Patch) (sh : Shape) :
    (applyPatch p sh).isSelected = sh.isSelected := by
  obtain ⟨i, st, sw, d, dr, sel, g⟩ := sh
  cases p <;> cases g <;> rfl

theorem applyPatch_rectBox (sh : Shape) (ox oy ow oh : ℚ) (f : String)
    (hr : sh.geom = ShapeGeom.rect ox oy ow oh f) (nx ny nw nh : ℚ) :
    applyPatch (Patch.rectBox nx ny nw nh) sh
      = { sh with geom := ShapeGeom.rect nx ny nw nh f } := by
  obtain ⟨i, st, sw, d, dr, sel, g⟩ := sh
  dsimp only at hr
  subst hr
  rfl

theorem applyPatch_circleBox (sh : Shape) (cx cy cr : ℚ) (f : String)
    (hc : sh.geom = ShapeGeom.circle cx cy cr f) (nx ny nr : ℚ) :
    applyPatch (Patch.circleBox nx ny nr) sh
      = { sh with geom := ShapeGeom.circle nx ny nr f } := by
  obtain ⟨i, st, sw, d, dr, sel, g⟩ := sh
  dsimp only at hc
  subst hc
  rfl

theorem applyPatch_linePoints (sh : Shape) (ps0 : List ℚ)
    (hg : sh.geom = ShapeGeom.line ps0) (ps : List ℚ) :
    applyPatch (Patch.linePoints ps) sh
      = { sh with geom := ShapeGeom.line ps } := by
  obtain ⟨i, st, sw, d, dr, sel, g⟩ := sh
  dsimp only at hg
  subst hg
  rfl

/-! ### More sample data for witnesses and counterexamples -/

/-- A concrete 100×60 rectangle shape at (10,10). -/
def shRectW : Shape :=
  { id := 0
    stroke := "#000000"
    strokeWidth := 2
    dash := []
    draggable := true
    isSelected := false
    geom := ShapeGeom.rect 10 10 100 60 "#f0f0f0" }

/-- A concrete radius-40 circle shape. -/
def shCircW : Shape := { shRectW with geom := ShapeGeom.circle 0 0 40 "#f0f0f0" }

/-- A concrete line shape with points `[0,0,3,4]`. -/
def shLineW : Shape := { shRectW with geom := ShapeGeom.line [0, 0, 3, 4] }

/-- The rectangle of `shRectW`, selected. -/
def shSelW : Shape := { shRectW with isSelected := true }

/-- A state holding one selected rectangle (id 0). -/
def s7 : AppState := { initialState with shapes := [shSelW], nextId := 1 }

/-- Counterexample to C4 as stated: creating a rectangle at `(10,10)` from
the initial state yields a one-shape collection in which no shape has
`selected = true` — the new shape carries `isSelected = false`; only the
separate `selectedId` reference is set to its id. -/
theorem c4_counterexample :
    (createShape ptA initialState).shapes.length = 1 ∧
    ((createShape ptA initialState).shapes.all fun sh => !sh.isSelected) = true ∧
    (createShape ptA initialState).selectedId = some 0 := by
  decide

/-- Claim C4 (amended): creating a rectangle at `P` appends a shape with
origin `P`, width 100 and height 60; creating a circle appends a shape with
center `P` and radius 40; each carries the tool configuration's stroke,
width, dash and fill, and the store's selected-id reference is set to the
new shape's id — but the new shape's per-shape `selected` flag in the
collection is `false`, not `true` (it only becomes `true` via a subsequent
select). -/
theorem c4_create_defaults (s : AppState) (pointer : Point) :
    (s.drawingType = ShapeType.rectangle →
      (createShape pointer s).shapes = s.shapes ++ [mkRect s pointer] ∧
      (createShape pointer s).selectedId = some (mkRect s pointer).id ∧
      (mkRect s pointer).geom = ShapeGeom.rect pointer.x pointer.y 100 60 s.fillColor ∧
      (mkRect s pointer).stroke = s.strokeColor ∧
      (mkRect s pointer).strokeWidth = s.strokeWidth ∧
      (mkRect s pointer).dash = dashArrayOf s.dashStyle ∧
      (mkRect s pointer).isSelected = false) ∧
    (s.drawingType = ShapeType.circle →
      (createShape pointer s).shapes = s.shapes ++ [mkCircle s pointer] ∧
      (createShape pointer s).selectedId = some (mkCircle s pointer).id ∧
      (mkCircle s pointer).geom = ShapeGeom.circle pointer.x pointer.y 40 s.fillColor ∧
      (mkCircle s pointer).stroke = s.strokeColor ∧
      (mkCircle s pointer).strokeWidth = s.strokeWidth ∧
      (mkCircle s pointer).dash = dashArrayOf s.dashStyle ∧
      (mkCircle s pointer).isSelected = false) := by
  constructor
  · intro hdt
    refine ⟨?_, ?_, rfl, rfl, rfl, rfl, rfl⟩ <;>
      simp [createShape, hdt, pushToHistory, mkRect]
  · intro hdt
    refine ⟨?_, ?_, rfl, rfl, rfl, rfl, rfl⟩ <;>
      simp [createShape, hdt, pushToHistory, mkCircle]

/-- Witness for C4 (amended) at the spec's scenario input: rectangle created
at `(10,10)` from the initial state. -/
theorem c4_witness :
    (createShape ptA initialState).shapes = initialState.shapes ++ [mkRect initialState ptA] ∧
    (createShape ptA initialState).selectedId = some (mkRect initialState ptA).id ∧
    (mkRect initialState ptA).geom = ShapeGeom.rect 10 10 100 60 "#f0f0f0" ∧
    (mkRect initialState ptA).isSelected = false := by
  have h := (c4_create_defaults initialState ptA).1 rfl
  exact ⟨h.1, h.2.1, h.2.2.1, h.2.2.2.2.2.2⟩

/-- Claim C5: the rectangle transform-end patch carries
`max 5 (oldDimension * scaleFactor)` in each axis and the circle
transform-end patch carries `max 5 (oldRadius * scale)`; each resulting
dimension is at least 5, and a target below 5 yields exactly 5. -/
theorem c5_min_size_clamp (sh ch : Shape) (ox oy ow oh cx cy cr : ℚ) (f g : String)
    (hr : sh.geom = ShapeGeom.rect ox oy ow oh f)
    (hc : ch.geom = ShapeGeom.circle cx cy cr g)
    (nx ny sx sy nu nv sc : ℚ) :
    ((applyPatch (rectTransformPatch nx ny ow oh sx sy) sh).geom
        = ShapeGeom.rect nx ny (max 5 (ow * sx)) (max 5 (oh * sy)) f ∧
      5 ≤ max 5 (ow * sx) ∧ 5 ≤ max 5 (oh * sy) ∧
      (ow * sx < 5 → max 5 (ow * sx) = 5) ∧
      (oh * sy < 5 → max 5 (oh * sy) = 5)) ∧
    ((applyPatch (circleTransformPatch nu nv cr sc) ch).geom
        = ShapeGeom.circle nu nv (max 5 (cr * sc)) g ∧
      5 ≤ max 5 (cr * sc) ∧
      (cr * sc < 5 → max 5 (cr * sc) = 5)) := by
  refine ⟨⟨?_, le_max_left _ _, le_max_left _ _, ?_, ?_⟩, ?_, le_max_left _ _, ?_⟩
  · rw [rectTransformPatch, applyPatch_rectBox sh ox oy ow oh f hr]
  · intro h
    exact max_eq_left h.le
  · intro h
    exact max_eq_left h.le
  · rw [circleTransformPatch, applyPatch_circleBox ch cx cy cr g hc]
  · intro h
    exact max_eq_left h.le

/-- Witness for C5 at the spec's scenario: a 100×60 rectangle scaled by
`0.01` in both axes clamps to 5×5, and a radius-40 circle scaled by `0.01`
clamps to radius 5. -/
theorem c5_witness :
    (applyPatch (rectTransformPatch 0 0 100 60 (1 / 100) (1 / 100)) shRectW).geom
      = ShapeGeom.rect 0 0 5 5 "#f0f0f0" ∧
    (applyPatch (circleTransformPatch 0 0 40 (1 / 100)) shCircW).geom
      = ShapeGeom.circle 0 0 5 "#f0f0f0" := by
  have h := c5_min_size_clamp shRectW shCircW 10 10 100 60 0 0 40 "#f0f0f0" "#f0f0f0"
    rfl rfl 0 0 (1 / 100) (1 / 100) 0 0 (1 / 100)
  have e1 : max (5 : ℚ) (100 * (1 / 100)) = 5 := max_eq_left (by norm_num)
  have e2 : max (5 : ℚ) (60 * (1 / 100)) = 5 := max_eq_left (by norm_num)
  have e3 : max (5 : ℚ) (40 * (1 / 100)) = 5 := max_eq_left (by norm_num)
  constructor
  · rw [h.1.1, e1, e2]
  · rw [h.2.1, e3]

/-- Claim C6: dragging a line with points `[x1,y1,x2,y2]` so its first
endpoint lands at `(nx,ny)` produces, in a single geometry patch, the points
`[x1+dx, y1+dy, x2+dx, y2+dy]` with `(dx,dy) = (nx-x1, ny-y1)`; both
endpoints move by the same delta and the segment's length (and orientation,
as the difference vector) is preserved exactly. -/
theorem c6_rigid_line_drag (sh : Shape) (x1 y1 x2 y2 nx ny : ℚ)
    (hg : sh.geom = ShapeGeom.line [x1, y1, x2, y2]) :
    (applyPatch (lineDragPatch x1 y1 x2 y2 nx ny) sh).geom
      = ShapeGeom.line
          [x1 + (nx - x1), y1 + (ny - y1), x2 + (nx - x1), y2 + (ny - y1)] ∧
    x1 + (nx - x1) = nx ∧ y1 + (ny - y1) = ny ∧
    (x2 + (nx - x1)) - (x1 + (nx - x1)) = x2 - x1 ∧
    (y2 + (ny - y1)) - (y1 + (ny - y1)) = y2 - y1 ∧
    ((x2 + (nx - x1)) - (x1 + (nx - x1))) ^ 2 + ((y2 + (ny - y1)) - (y1 + (ny - y1))) ^ 2
      = (x2 - x1) ^ 2 + (y2 - y1) ^ 2 := by
  refine ⟨?_, by ring, by ring, by ring, by ring, by ring⟩
  rw [lineDragPatch, applyPatch_linePoints sh [x1, y1, x2, y2] hg]

/-- Witness for C6: the line `[0,0,3,4]` dragged so its first endpoint lands
at `(10,10)` becomes `[10,10,13,14]`; the squared length stays 25. -/
theorem c6_witness :
    (applyPatch (lineDragPatch 0 0 3 4 10 10) shLineW).geom
      = ShapeGeom.line [10, 10, 13, 14] ∧
    ((13 : ℚ) - 10) ^ 2 + ((14 : ℚ) - 10) ^ 2 = (3 : ℚ) ^ 2 + (4 : ℚ) ^ 2 := by
  have h := c6_rigid_line_drag shLineW 0 0 3 4 10 10 rfl
  constructor
  · rw [h.1]
    norm_num
  · norm_num

/-- Counterexample to C7 as stated: in a state whose single shape has id 0
(so id 99 is absent), `updateShape 99` does push a history entry (the
snapshot of the unchanged collection), and `handleSelect 99` changes the
collection by clearing the selected shape's flag. -/
theorem c7_counterexample :
    (s7.shapes.all fun sh => !(sh.id == 99)) = true ∧
    (updateShape 99 (Patch.pos 0 0) s7).history ≠ s7.history ∧
    (handleSelect 99 s7).shapes ≠ s7.shapes := by
  decide

/-- Claim C7 (amended): for an id absent from the collection, neither
operation throws and neither changes any shape's geometry —
`updateGeometry` leaves the collection unchanged but still pushes a history
entry (a snapshot equal to the live collection) and clears the redo stack,
and `select` pushes no history entry but resets every shape's `selected`
flag to `false`, so the collection is unchanged exactly when no shape was
selected. -/
theorem c7_absent_id (s : AppState) (sid : Nat) (p : Patch)
    (habs : ∀ sh ∈ s.shapes, sh.id ≠ sid) :
    (updateShape sid p s).shapes = s.shapes ∧
    (updateShape sid p s).history = s.history ++ [s.shapes] ∧
    (updateShape sid p s).redoStack = [] ∧
    (handleSelect sid s).history = s.history ∧
    (handleSelect sid s).shapes = s.shapes.map (fun sh => { sh with isSelected := false }) ∧
    ((∀ sh ∈ s.shapes, sh.isSelected = false) → (handleSelect sid s).shapes = s.shapes) := by
  have hbeq : ∀ sh ∈ s.shapes, (sh.id == sid) = false := fun sh hm =>
    beq_eq_false_iff_ne.mpr (habs sh hm)
  refine ⟨?_, rfl, rfl, rfl, ?_, ?_⟩
  · show s.shapes.map (fun sh => if sh.id == sid then applyPatch p sh else sh) = s.shapes
    have hmap : s.shapes.map (fun sh => if sh.id == sid then applyPatch p sh else sh)
        = s.shapes.map (fun sh => sh) := by
      apply List.map_congr_left
      intro sh hm
      simp [hbeq sh hm]
    simpa using hmap
  · show s.shapes.map (fun sh => ({ sh with isSelected := sh.id == sid } : Shape))
        = s.shapes.map (fun sh => ({ sh with isSelected := false } : Shape))
    apply List.map_congr_left
    intro sh hm
    rw [hbeq sh hm]
  · intro hsel
    show s.shapes.map (fun sh => ({ sh with isSelected := sh.id == sid } : Shape)) = s.shapes
    have hmap : s.shapes.map (fun sh => ({ sh with isSelected := sh.id == sid } : Shape))
        = s.shapes.map (fun sh => sh) := by
      apply List.map_congr_left
      intro sh hm
      rw [hbeq sh hm, ← hsel sh hm]
    simpa using hmap

/-- Witness for C7 (amended): id 99 is absent from the one-rectangle state;
update leaves the collection unchanged but appends a history entry, select
pushes no history entry and (nothing being selected) leaves the collection
unchanged. -/
theorem c7_witness :
    (updateShape 99 (Patch.pos 0 0) sRect1).shapes = sRect1.shapes ∧
    (updateShape 99 (Patch.pos 0 0) sRect1).history = sRect1.history ++ [sRect1.shapes] ∧
    (handleSelect 99 sRect1).history = sRect1.history ∧
    (handleSelect 99 sRect1).shapes = sRect1.shapes := by
  have h := c7_absent_id sRect1 99 (Patch.pos 0 0) (by decide)
  exact ⟨h.1, h.2.1, h.2.2.2.1, h.2.2.2.2.2 (by decide)⟩

/-! ### Characterization of `createShape` by branch -/

theorem createShape_line_pending (s : AppState) (pt : Point)
    (hdt : s.drawingType = ShapeType.line) (hst : s.lineStart = none) :
    createShape pt s = { s with lineStart := some pt } := by
  simp [createShape, hdt, hst]

theorem createShape_line_complete (s : AppState) (pt st : Point)
    (hdt : s.drawingType = ShapeType.line) (hst : s.lineStart = some st) :
    createShape pt s =
      { s with
          shapes := s.shapes ++ [mkLine s st pt]
          history := s.history ++ [s.shapes]
          redoStack := []
          lineStart := none
          nextId := s.nextId + 1 } := by
  simp [createShape, hdt, hst, pushToHistory]

theorem createShape_rect (s : AppState) (pt : Point)
    (hdt : s.drawingType = ShapeType.rectangle) :
    createShape pt s =
      { s with
          shapes := s.shapes ++ [mkRect s pt]
          selectedId := some s.nextId
          history := s.history ++ [s.shapes]
          redoStack := []
          nextId := s.nextId + 1 } := by
  simp [createShape, hdt, pushToHistory, mkRect]

theorem createShape_circle (s : AppState) (pt : Point)
    (hdt : s.drawingType = ShapeType.circle) :
    createShape pt s =
      { s with
          shapes := s.shapes ++ [mkCircle s pt]
          selectedId := some s.nextId
          history := s.history ++ [s.shapes]
          redoStack := []
          nextId := s.nextId + 1 } := by
  simp [createShape, hdt, pushToHistory, mkCircle]

/-! ### The reachable-state invariant for C8 -/

/-- A well-formed collection relative to the fresh-id bound `n`: shape ids
are pairwise distinct, all ids are below `n`, and at most one shape is
selected. -/
def goodColl (n : Nat) (shapes : List Shape) : Prop :=
  (shapes.map Shape.id).Nodup ∧ (∀ sh ∈ shapes, sh.id < n) ∧ selCount shapes ≤ 1

/-- The state invariant: the live collection and every snapshot stored on
either stack are well-formed relative to the current fresh-id bound. -/
def Inv (s : AppState) : Prop :=
  goodColl s.nextId s.shapes ∧
  (∀ snap ∈ s.history, goodColl s.nextId snap) ∧
  (∀ snap ∈ s.redoStack, goodColl s.nextId snap)

theorem goodColl_mono {n m : Nat} (h : n ≤ m) {l : List Shape}
    (hg : goodColl n l) : goodColl m l :=
  ⟨hg.1, fun sh hm => lt_of_lt_of_le (hg.2.1 sh hm) h, hg.2.2⟩

theorem goodColl_concat_fresh {n : Nat} {l : List Shape} (hg : goodColl n l)
    {sh : Shape} (hid : sh.id = n) (hsel : sh.isSelected = false) :
    goodColl (n + 1) (l ++ [sh]) := by
  obtain ⟨hnd, hlt, hcnt⟩ := hg
  refine ⟨?_, ?_, ?_⟩
  · rw [List.map_append, List.nodup_append]
    refine ⟨hnd, by simp, ?_⟩
    intro x hx hy
    rcases List.mem_map.mp hx with ⟨sh', hm', rfl⟩
    simp only [List.map_cons, List.map_nil, List.mem_singleton] at hy
    have h1 := hlt sh' hm'
    rw [hy, hid] at h1
    exact absurd h1 (Nat.lt_irrefl n)
  · intro sh' hm'
    rcases List.mem_append.mp hm' with h | h
    · exact lt_of_lt_of_le (hlt sh' h) (Nat.le_succ n)
    · rw [List.mem_singleton.mp h, hid]
      exact Nat.lt_succ_self n
  · simpa [selCount, hsel] using hcnt

theorem countP_congr_weak {α : Type} {l : List α} {p q : α → Bool}
    (h : ∀ a ∈ l, p a = q a) : List.countP p l = List.countP q l := by
  induction l with
  | nil => rfl
  | cons a t ih =>
      rw [List.countP_cons, List.countP_cons, h a (List.mem_cons_self a t),
        ih fun b hb => h b (List.mem_cons_of_mem a hb)]

theorem ids_ignore_map {l : List Shape} {f : Shape → Shape}
    (h : ∀ sh ∈ l, (f sh).id = sh.id) :
    (l.map f).map Shape.id = l.map Shape.id := by
  rw [List.map_map]
  exact List.map_congr_left fun sh hm => h sh hm

theorem goodColl_map_id_preserving {n : Nat} {l : List Shape} (hg : goodColl n l)
    {f : Shape → Shape} (hid : ∀ sh ∈ l, (f sh).id = sh.id)
    (hcnt : selCount (l.map f) ≤ 1) :
    goodColl n (l.map f) := by
  refine ⟨?_, ?_, hcnt⟩
  · rw [ids_ignore_map hid]
    exact hg.1
  · intro sh' hm'
    rcases List.mem_map.mp hm' with ⟨sh, hm, rfl⟩
    rw [hid sh hm]
    exact hg.2.1 sh hm

theorem selCount_select_le (l : List Shape) (i : Nat)
    (hnd : (l.map Shape.id).Nodup) :
    selCount (l.map fun sh => ({ sh with isSelected := sh.id == i } : Shape)) ≤ 1 := by
  have h1 : selCount (l.map fun sh => ({ sh with isSelected := sh.id == i } : Shape))
      = List.countP (fun sh => sh.id == i) l := by
    unfold selCount
    rw [List.countP_map]
    rfl
  have h2 : List.countP (fun sh => sh.id == i) l = (l.map Shape.id).count i := by
    rw [List.count_eq_countP, List.countP_map]
    rfl
  rw [h1, h2]
  exact List.nodup_iff_count_le_one.mp hnd i

theorem selCount_update_eq (l : List Shape) (u : Nat) (p : Patch) :
    selCount (l.map fun sh => if sh.id == u then applyPatch p sh else sh)
      = selCount l := by
  unfold selCount
  rw [List.countP_map]
  apply countP_congr_weak
  intro sh hm
  by_cases h : sh.id = u
  · simp [h, applyPatch_isSelected]
  · simp [h]

/-! ### Each gesture preserves the invariant -/

theorem inv_push_append {s : AppState} (hs : Inv s) {sh : Shape}
    (hid : sh.id = s.nextId) (hsel : sh.isSelected = false)
    (sel' : Option Nat) (ls' : Option Point) :
    Inv { s with
            shapes := s.shapes ++ [sh]
            selectedId := sel'
            lineStart := ls'
            history := s.history ++ [s.shapes]
            redoStack := []
            nextId := s.nextId + 1 } := by
  refine ⟨goodColl_concat_fresh hs.1 hid hsel, ?_, ?_⟩
  · intro snap hm
    rcases List.mem_append.mp hm with h | h
    · exact goodColl_mono (Nat.le_succ _) (hs.2.1 snap h)
    · rw [List.mem_singleton.mp h]
      exact goodColl_mono (Nat.le_succ _) hs.1
  · intro snap hm
    exact absurd hm (List.not_mem_nil snap)

theorem inv_createShape (pt : Point) (s : AppState) (hs : Inv s) :
    Inv (createShape pt s) := by
  cases hdt : s.drawingType with
  | rectangle =>
      rw [createShape_rect s pt hdt]
      exact inv_push_append hs rfl rfl _ _
  | circle =>
      rw [createShape_circle s pt hdt]
      exact inv_push_append hs rfl rfl _ _
  | line =>
      cases hst : s.lineStart with
      | none =>
          rw [createShape_line_pending s pt hdt hst]
          exact ⟨hs.1, hs.2.1, hs.2.2⟩
      | some st =>
          rw [createShape_line_complete s pt st hdt hst]
          exact inv_push_append hs rfl rfl _ _

theorem inv_handleSelect (i : Nat) (s : AppState) (hs : Inv s) :
    Inv (handleSelect i s) := by
  refine ⟨?_, hs.2.1, hs.2.2⟩
  exact goodColl_map_id_preserving hs.1 (fun sh hm => rfl)
    (selCount_select_le s.shapes i hs.1.1)

theorem inv_updateShape (u : Nat) (p : Patch) (s : AppState) (hs : Inv s) :
    Inv (updateShape u p s) := by
  refine ⟨?_, ?_, ?_⟩
  · refine goodColl_map_id_preserving hs.1 ?_ ?_
    · intro sh hm
      by_cases h : (sh.id == u) = true <;> simp [h, applyPatch_id]
    · rw [selCount_update_eq]
      exact hs.1.2.2
  · intro snap hm
    rcases List.mem_append.mp hm with h | h
    · exact hs.2.1 snap h
    · rw [List.mem_singleton.mp h]
      exact hs.1
  · intro snap hm
    exact absurd hm (List.not_mem_nil snap)

theorem inv_undoLast (s : AppState) (hs : Inv s) : Inv (undoLast s) := by
  rcases List.eq_nil_or_concat s.history with h | ⟨hh, S, hEq⟩
  · rw [undoLast_of_history_nil s h]
    exact hs
  · rw [List.concat_eq_append] at hEq
    rw [undoLast_concat s hh S hEq]
    refine ⟨?_, ?_, ?_⟩
    · exact hs.2.1 S (by rw [hEq]; exact List.mem_append_right _ (List.mem_singleton_self _))
    · intro snap hm
      exact hs.2.1 snap (by rw [hEq]; exact List.mem_append_left _ hm)
    · intro snap hm
      rcases List.mem_append.mp hm with h1 | h1
      · exact hs.2.2 snap h1
      · rw [List.mem_singleton.mp h1]
        exact hs.1

theorem inv_redoLast (s : AppState) (hs : Inv s) : Inv (redoLast s) := by
  rcases List.eq_nil_or_concat s.redoStack with h | ⟨rr, S, hEq⟩
  · rw [redoLast_of_redoStack_nil s h]
    exact hs
  · rw [List.concat_eq_append] at hEq
    rw [redoLast_concat s rr S hEq]
    refine ⟨?_, ?_, ?_⟩
    · exact hs.2.2 S (by rw [hEq]; exact List.mem_append_right _ (List.mem_singleton_self _))
    · intro snap hm
      rcases List.mem_append.mp hm with h1 | h1
      · exact hs.2.1 snap h1
      · rw [List.mem_singleton.mp h1]
        exact hs.1
    · intro snap hm
      exact hs.2.2 snap (by rw [hEq]; exact List.mem_append_left _ hm)

theorem inv_applyOp (s : AppState) (op : Op) (hs : Inv s) : Inv (applyOp s op) := by
  cases op with
  | create pt => exact inv_createShape pt s hs
  | select i => exact inv_handleSelect i s hs
  | update u p => exact inv_updateShape u p s hs
  | undo => exact inv_undoLast s hs
  | redo => exact inv_redoLast s hs
  | setType t => exact ⟨hs.1, hs.2.1, hs.2.2⟩

theorem inv_applyOps (ops : List Op) (s : AppState) (hs : Inv s) :
    Inv (applyOps ops s) := by
  induction ops generalizing s with
  | nil => exact hs
  | cons op rest ih => exact ih (applyOp s op) (inv_applyOp s op hs)

theorem inv_initial : Inv initialState := by
  refine ⟨⟨List.nodup_nil, ?_, ?_⟩, ?_, ?_⟩ <;> simp [initialState, selCount]

/-- Claim C8: in every state reachable from the empty collection by any
sequence of gestures, at most one shape has `selected = true`; and a select
on that state sets `selected` to `true` exactly on the shapes with the given
id — hence, ids being unique in reachable states, on that one shape when it
is present and on none otherwise — sets it to `false` on all others, and
pushes no history entry. -/
theorem c8_selection_exclusivity (ops : List Op) (i : Nat) :
    selCount (applyOps ops initialState).shapes ≤ 1 ∧
    ((applyOps ops initialState).shapes.map Shape.id).Nodup ∧
    (handleSelect i (applyOps ops initialState)).history
      = (applyOps ops initialState).history ∧
    selCount (handleSelect i (applyOps ops initialState)).shapes ≤ 1 ∧
    (∀ sh ∈ (handleSelect i (applyOps ops initialState)).shapes,
      sh.isSelected = (sh.id == i)) ∧
    ((∃ sh ∈ (applyOps ops initialState).shapes, sh.id = i) →
      ∃ sh ∈ (handleSelect i (applyOps ops initialState)).shapes,
        sh.id = i ∧ sh.isSelected = true) := by
  have hinv := inv_applyOps ops initialState inv_initial
  have hsel := inv_handleSelect i _ hinv
  refine ⟨hinv.1.2.2, hinv.1.1, rfl, hsel.1.2.2, ?_, ?_⟩
  · intro sh hm
    rcases List.mem_map.mp hm with ⟨sh0, _, rfl⟩
    rfl
  · intro hex
    rcases hex with ⟨sh0, hm0, hid0⟩
    refine ⟨{ sh0 with isSelected := sh0.id == i }, List.mem_map_of_mem _ hm0, hid0, ?_⟩
    show (sh0.id == i) = true
    exact beq_iff_eq.mpr hid0

/-- Witness for C8: after creating two rectangles, selecting id 0 marks the
shape with id 0 selected, keeps at most one shape selected, and pushes no
history entry. -/
theorem c8_witness :
    selCount (applyOps [Op.create ptA, Op.create ⟨20, 20⟩] initialState).shapes ≤ 1 ∧
    (handleSelect 0 (applyOps [Op.create ptA, Op.create ⟨20, 20⟩] initialState)).history
      = (applyOps [Op.create ptA, Op.create ⟨20, 20⟩] initialState).history ∧
    selCount (handleSelect 0 (applyOps [Op.create ptA, Op.create ⟨20, 20⟩] initialState)).shapes ≤ 1 ∧
    ∃ sh ∈ (handleSelect 0 (applyOps [Op.create ptA, Op.create ⟨20, 20⟩] initialState)).shapes,
      sh.id = 0 ∧ sh.isSelected = true := by
  have h := c8_selection_exclusivity [Op.create ptA, Op.create ⟨20, 20⟩] 0
  exact ⟨h.1, h.2.2.1, h.2.2.2.1, h.2.2.2.2.2 (by decide)⟩

/-! ### History preservation under edit gestures (C9) -/

theorem applyOp_edit_history (s : AppState) (op : Op) (h : isEditOp op = true) :
    ∃ t, (applyOp s op).history = s.history ++ t := by
  cases op with
  | create pt =>
      show ∃ t, (createShape pt s).history = s.history ++ t
      cases hdt : s.drawingType with
      | rectangle => exact ⟨[s.shapes], by rw [createShape_rect s pt hdt]⟩
      | circle => exact ⟨[s.shapes], by rw [createShape_circle s pt hdt]⟩
      | line =>
          cases hst : s.lineStart with
          | none => exact ⟨[], by rw [createShape_line_pending s pt hdt hst]; simp⟩
          | some st => exact ⟨[s.shapes], by rw [createShape_line_complete s pt st hdt hst]⟩
  | select i => exact ⟨[], by simp [applyOp, handleSelect]⟩
  | update u p => exact ⟨[s.shapes], rfl⟩
  | undo => simp [isEditOp] at h
  | redo => simp [isEditOp] at h
  | setType t => exact ⟨[], by simp [applyOp, setDrawingType]⟩

theorem applyOps_edit_history (ops : List Op) (s : AppState)
    (h : ∀ op ∈ ops, isEditOp op = true) :
    ∃ t, (applyOps ops s).history = s.history ++ t := by
  induction ops generalizing s with
  | nil => exact ⟨[], by simp [applyOps]⟩
  | cons op rest ih =>
      rcases applyOp_edit_history s op (h op (List.mem_cons_self op rest)) with ⟨t1, h1⟩
      rcases ih (applyOp s op) (fun o ho => h o (List.mem_cons_of_mem op ho)) with ⟨t2, h2⟩
      refine ⟨t1 ++ t2, ?_⟩
      show (applyOps rest (applyOp s op)).history = s.history ++ (t1 ++ t2)
      rw [h2, h1, List.append_assoc]

/-- Claim C9: once a snapshot sits at position `i` of the undo stack, no
sequence of edit gestures (creation, selection, geometry update — the
mutating operations on the live collection) changes it: the entry at `i` is
bit-for-bit the one stored; and undo restores the top stored snapshot
exactly as it was at the moment of capture. -/
theorem c9_snapshot_immutable (ops : List Op) (s : AppState)
    (hops : ∀ op ∈ ops, isEditOp op = true) (i : Nat) (hi : i < s.history.length) :
    (applyOps ops s).history[i]? = s.history[i]? ∧
    (∀ h S, s.history = h ++ [S] → (undoLast s).shapes = S) := by
  constructor
  · rcases applyOps_edit_history ops s hops with ⟨t, ht⟩
    rw [ht]
    exact List.getElem?_append_left hi
  · intro h S hh
    rw [undoLast_concat s h S hh]

/-- Witness for C9: the empty-collection snapshot stored when the sample
rectangle was created survives a further geometry update unchanged, and undo
restores it exactly. -/
theorem c9_witness :
    (applyOps [Op.update 0 (Patch.pos 1 2)] sRect1).history[0]? = sRect1.history[0]? ∧
    (undoLast sRect1).shapes = [] := by
  have h := c9_snapshot_immutable [Op.update 0 (Patch.pos 1 2)] sRect1 (by decide) 0 (by decide)
  exact ⟨h.1, h.2 [] [] (by decide)⟩

/-- Claim C10: the pending line-start point is untouched by undo, redo,
changing the active shape kind, selection, geometry updates and non-line
placements; it is cleared exactly by the line-placement click that consumes
it, which completes the line from the pending start — so a pending start
recorded before a kind change or an undo still completes a line on the next
line-placement click. -/
theorem c10_pending_point (s : AppState) (t : ShapeType) (i u : Nat) (p : Patch) (pt : Point) :
    (undoLast s).lineStart = s.lineStart ∧
    (redoLast s).lineStart = s.lineStart ∧
    (setDrawingType t s).lineStart = s.lineStart ∧
    (handleSelect i s).lineStart = s.lineStart ∧
    (updateShape u p s).lineStart = s.lineStart ∧
    (s.drawingType ≠ ShapeType.line → (createShape pt s).lineStart = s.lineStart) ∧
    (∀ st, s.lineStart = some st → s.drawingType = ShapeType.line →
      (createShape pt s).lineStart = none ∧
      (createShape pt s).shapes = s.shapes ++ [mkLine s st pt]) := by
  refine ⟨?_, ?_, rfl, rfl, rfl, ?_, ?_⟩
  · rcases List.eq_nil_or_concat s.history with h | ⟨hh, S, hEq⟩
    · rw [undoLast_of_history_nil s h]
    · rw [List.concat_eq_append] at hEq
      rw [undoLast_concat s hh S hEq]
  · rcases List.eq_nil_or_concat s.redoStack with h | ⟨rr, S, hEq⟩
    · rw [redoLast_of_redoStack_nil s h]
    · rw [List.concat_eq_append] at hEq
      rw [redoLast_concat s rr S hEq]
  · intro hdt
    cases hdt2 : s.drawingType with
    | rectangle => rw [createShape_rect s pt hdt2]
    | circle => rw [createShape_circle s pt hdt2]
    | line => exact absurd hdt2 hdt
  · intro st hst hdt
    rw [createShape_line_complete s pt st hdt hst]
    exact ⟨rfl, rfl⟩

/-- Witness for C10: with the pending start `(0,0)` recorded, undo and a
kind change leave it pending, and the next line-placement click consumes it
into the completed line. -/
theorem c10_witness :
    (undoLast sLine1).lineStart = sLine1.lineStart ∧
    (setDrawingType ShapeType.rectangle sLine1).lineStart = sLine1.lineStart ∧
    (createShape ⟨50, 50⟩ sLine1).lineStart = none ∧
    (createShape ⟨50, 50⟩ sLine1).shapes
      = sLine1.shapes ++ [mkLine sLine1 ⟨0, 0⟩ ⟨50, 50⟩] := by
  have h := c10_pending_point sLine1 ShapeType.rectangle 0 0 (Patch.pos 0 0) ⟨50, 50⟩
  have h7 := h.2.2.2.2.2.2 ⟨0, 0⟩ (by decide) (by decide)
  exact ⟨h.1, h.2.2.1, h7.1, h7.2⟩

end Drawing
